import Mathlib

/-!
Verification of the spotify-cards backend (`src/app.py`) against its
natural-language specification.  The Python source is shallowly embedded:
each Python function becomes a Lean definition over explicit data types,
HTTP responses become records, and the upstream service becomes an explicit
environment function from URLs to responses.
-/

namespace SpotifyCards

/-- A character matched by the character class `[A-Za-z0-9]` used in both
regexes of `extract_playlist_id`. -/
def isAlnum (c : Char) : Bool :=
  ('A' ≤ c && c ≤ 'Z') || ('a' ≤ c && c ≤ 'z') || ('0' ≤ c && c ≤ '9')

/-- The literal characters of the path segment the extraction regex
`playlist/([A-Za-z0-9]+)` searches for. -/
def playlistPat : List Char := "playlist/".data

/-- One attempt of the regex `playlist/([A-Za-z0-9]+)` anchored at the head
of `cs`: succeeds when `cs` starts with the literal `playlist/` followed by
at least one alphanumeric character, and captures the maximal (greedy)
alphanumeric run after the slash. -/
def matchPlaylistAt (cs : List Char) : Option (List Char) :=
  if cs.take 9 = playlistPat then
    if ((cs.drop 9).takeWhile isAlnum).isEmpty then none
    else some ((cs.drop 9).takeWhile isAlnum)
  else none

/-- `re.search(r"playlist/([A-Za-z0-9]+)", s)`: try the anchored match at
every position from left to right and return the leftmost capture. -/
def searchPlaylist : List Char → Option (List Char)
  | [] => none
  | c :: cs =>
    match matchPlaylistAt (c :: cs) with
    | some id => some id
    | none => searchPlaylist cs

/-- Embedding of `extract_playlist_id` (src/app.py lines 20-24):
`re.fullmatch(r"[A-Za-z0-9]+", url)` returns the url unchanged (a bare id,
necessarily non-empty because `+` needs one character); otherwise the
`playlist/<id>` search result; otherwise `None`. -/
def extract_playlist_id (url : String) : Option String :=
  if url.data ≠ [] ∧ url.data.all isAlnum then some url
  else
    match searchPlaylist url.data with
    | some id => some (String.mk id)
    | none => none

/-- The reference extractor exactly as the claim words it: a string that
consists entirely of alphanumeric characters (with no non-emptiness
requirement) is returned unchanged; otherwise the `playlist/<id>` capture;
otherwise no identifier. -/
def claimRefExtract (url : String) : Option String :=
  if url.data.all isAlnum then some url
  else
    match searchPlaylist url.data with
    | some id => some (String.mk id)
    | none => none

theorem matchPlaylistAt_some {cs id : List Char} (h : matchPlaylistAt cs = some id) :
    id ≠ [] ∧ id.all isAlnum = true ∧ ∃ post, cs = playlistPat ++ id ++ post := by
  unfold matchPlaylistAt at h
  split at h
  · next hpat =>
    split at h
    · exact absurd h (by simp)
    · next hne =>
      have hid : (cs.drop 9).takeWhile isAlnum = id := by simpa using h
      refine ⟨?_, ?_, (cs.drop 9).dropWhile isAlnum, ?_⟩
      · intro hnil
        rw [hid, hnil] at hne
        simp at hne
      · rw [← hid]
        exact List.all_eq_true.2 fun c hc => by
          simpa using List.mem_takeWhile_imp hc
      · have h1 : cs = playlistPat ++
            ((cs.drop 9).takeWhile isAlnum ++ (cs.drop 9).dropWhile isAlnum) := by
          rw [List.takeWhile_append_dropWhile, ← hpat, List.take_append_drop]
        conv_lhs => rw [h1, hid]
        simp [List.append_assoc]
  · exact absurd h (by simp)

theorem searchPlaylist_some {cs id : List Char} (h : searchPlaylist cs = some id) :
    id ≠ [] ∧ id.all isAlnum = true ∧ ∃ pre post, cs = pre ++ playlistPat ++ id ++ post := by
  induction cs with
  | nil => simp [searchPlaylist] at h
  | cons c cs ih =>
    rw [searchPlaylist] at h
    cases hm : matchPlaylistAt (c :: cs) with
    | some id' =>
      rw [hm] at h
      obtain rfl : id' = id := by simpa using h
      obtain ⟨h1, h2, post, h3⟩ := matchPlaylistAt_some hm
      exact ⟨h1, h2, [], post, by simpa using h3⟩
    | none =>
      rw [hm] at h
      obtain ⟨h1, h2, pre, post, h3⟩ := ih h
      exact ⟨h1, h2, c :: pre, post, by simp [h3]⟩

theorem searchPlaylist_of_match {cs : List Char} (h : (matchPlaylistAt cs).isSome = true) :
    (searchPlaylist cs).isSome = true := by
  cases cs with
  | nil =>
    rw [show matchPlaylistAt [] = none from by decide] at h
    simp at h
  | cons c cs =>
    rw [searchPlaylist]
    cases hm : matchPlaylistAt (c :: cs) with
    | some x => simp
    | none => rw [hm] at h; simp at h

theorem matchPlaylistAt_hit {id post : List Char} (hne : id ≠ [])
    (halnum : id.all isAlnum = true) :
    (matchPlaylistAt (playlistPat ++ id ++ post)).isSome = true := by
  obtain ⟨a, id', rfl⟩ : ∃ a id', id = a :: id' := by
    cases id with
    | nil => exact absurd rfl hne
    | cons a id' => exact ⟨a, id', rfl⟩
  have ha : isAlnum a = true := by
    simpa using List.all_eq_true.1 halnum a (by simp)
  unfold matchPlaylistAt
  have hlen : playlistPat.length = 9 := by decide
  have htake : (playlistPat ++ (a :: id') ++ post).take 9 = playlistPat := by
    rw [List.append_assoc, ← hlen, List.take_left]
  have hdrop : (playlistPat ++ (a :: id') ++ post).drop 9 = a :: (id' ++ post) := by
    rw [List.append_assoc, ← hlen, List.drop_left]
    simp
  rw [htake, if_pos rfl, hdrop]
  simp [List.takeWhile_cons, ha]

theorem searchPlaylist_isSome (pre id post : List Char) (hne : id ≠ [])
    (halnum : id.all isAlnum = true) :
    (searchPlaylist (pre ++ playlistPat ++ id ++ post)).isSome = true := by
  induction pre with
  | nil =>
    apply searchPlaylist_of_match
    rw [List.nil_append]
    exact matchPlaylistAt_hit hne halnum
  | cons c pre ih =>
    rw [show (c :: pre) ++ playlistPat ++ id ++ post =
        c :: (pre ++ playlistPat ++ id ++ post) from by simp]
    rw [searchPlaylist]
    cases hm : matchPlaylistAt (c :: (pre ++ playlistPat ++ id ++ post)) with
    | some x => simp
    | none => exact ih

/-! ## Data model of the upstream JSON payloads

Each optional JSON sub-field of a playlist item becomes an `Option` field;
`none` models an absent (or `null`) field, matching the `dict.get` defaults
the Python code uses. -/

/-- One element of a track's `artists` array; the code reads `a.get("name","")`. -/
structure RawArtist where
  name : Option String
deriving DecidableEq

/-- A track's `album` object; the code reads `.get("release_date")`. -/
structure RawAlbum where
  release_date : Option String
deriving DecidableEq

/-- A track's `external_urls` object; the code reads `.get("spotify","")`. -/
structure ExternalUrls where
  spotify : Option String
deriving DecidableEq

/-- The nested `track` object of a playlist item, with exactly the fields
`fetch_playlist_tracks` reads (src/app.py lines 55-62). -/
structure RawTrack where
  type : Option String
  artists : Option (List RawArtist)
  album : Option RawAlbum
  name : Option String
  external_urls : Option ExternalUrls
deriving DecidableEq

/-- One element of a page's `items` array; `track` is `none` when the key is
absent or holds `null`. -/
structure RawItem where
  track : Option RawTrack
deriving DecidableEq

/-- The flat output record `{"Artist": ..., "Year": ..., "Title": ..., "Link": ...}`
appended to `rows` for every playable track. -/
structure NormalizedRecord where
  Artist : String
  Year : String
  Title : String
  Link : String
deriving DecidableEq

/-- Python string slicing `s[:n]`. -/
def takeChars (n : Nat) (s : String) : String := String.mk (s.data.take n)

/-- The per-item body of the loop in `fetch_playlist_tracks`
(src/app.py lines 55-63): skip the item when the nested track is absent or
its `type` is not `"track"`; otherwise build the flat record using the
code's `dict.get` defaults. -/
def normalizeItem (it : RawItem) : Option NormalizedRecord :=
  match it.track with
  | none => none
  | some t =>
    if t.type = some "track" then
      some { Artist := String.intercalate ", " ((t.artists.getD []).map (fun a => a.name.getD ""))
           , Year := takeChars 4 ((t.album.bind RawAlbum.release_date).getD "")
           , Title := t.name.getD ""
           , Link := ((t.external_urls.getD ⟨none⟩).spotify).getD "" }
    else none

/-- Normalization over a page's `items` list, in arrival order. -/
def normalizeItems (its : List RawItem) : List NormalizedRecord :=
  its.filterMap normalizeItem

/-- The substring of `s` strictly before its first `-` (the whole of `s`
when it has no dash); used to compare the code's `[:4]` slice with the
spec's alternative description of the Year field. -/
def beforeDash (s : String) : String := String.mk (s.data.takeWhile (fun c => c ≠ '-'))

/-- The key/value pairs of the Python dict a record embeds. -/
def recordPairs (r : NormalizedRecord) : List (String × String) :=
  [("Artist", r.Artist), ("Year", r.Year), ("Title", r.Title), ("Link", r.Link)]

/-- The list of field values of a record, in header order. -/
def recordFields (r : NormalizedRecord) : List String :=
  [r.Artist, r.Year, r.Title, r.Link]

/-! ## Paginated fetch

The upstream service is an environment `env : String → Response` mapping a
request URL to the HTTP response the server returns for it.  The `while url:`
loop of `fetch_playlist_tracks` becomes fuel-indexed recursion; `none` marks
fuel exhaustion (a `next` chain longer than the fuel), `some` the value the
Python function returns or the `HTTPException` it raises. -/

/-- An HTTP response from the upstream API: status code, raw body text, and
the two JSON fields the code reads from a tracks page (`items`, `next`).
`next = none` models an absent or `null` "next" link. -/
structure Response where
  status : Nat
  body : String
  items : List RawItem
  next : Option String
deriving DecidableEq

/-- The `HTTPException` raised when a page fetch fails: the upstream status
code and the detail string built from the upstream body and the probe. -/
structure FetchErr where
  status : Nat
  detail : String
deriving DecidableEq

/-- The playlist-metadata URL probed to enrich a fetch error. -/
def probeUrl (pid : String) : String :=
  "https://api.spotify.com/v1/playlists/" ++ pid

/-- First-page URL of the tracks collection (src/app.py lines 41-42). -/
def tracksUrl (pid market : String) : String :=
  let base := "https://api.spotify.com/v1/playlists/" ++ pid ++ "/tracks?limit=100&offset=0"
  if market = "" then base else base ++ "&market=" ++ market

/-- The detail string of a failed page fetch (src/app.py lines 49-53):
upstream body followed by the probe's status and truncated body. -/
def mkErrDetail (r probe : Response) : String :=
  "Spotify API: " ++ r.body ++ " | probe_status=" ++ toString probe.status
    ++ " body=" ++ takeChars 200 probe.body

/-- The `while url:` loop of `fetch_playlist_tracks` (src/app.py lines
46-64).  The loop exits normally when the pending URL is `None` (or the
empty, falsy string); a non-200 page raises; otherwise the page's playable
items are appended to the accumulator and the page's `next` link is
followed. -/
def fetchLoop (env : String → Response) (pid : String) :
    Nat → Option String → List NormalizedRecord →
    Option (Except FetchErr (List NormalizedRecord))
  | _, none, acc => some (.ok acc)
  | 0, some u, acc => if u = "" then some (.ok acc) else none
  | fuel + 1, some u, acc =>
    if u = "" then some (.ok acc)
    else
      if (env u).status ≠ 200 then
        some (.error ⟨(env u).status, mkErrDetail (env u) (env (probeUrl pid))⟩)
      else fetchLoop env pid fuel (env u).next (acc ++ normalizeItems (env u).items)

/-- Embedding of `fetch_playlist_tracks` (src/app.py lines 39-65). -/
def fetch_playlist_tracks (env : String → Response) (pid market : String)
    (fuel : Nat) : Option (Except FetchErr (List NormalizedRecord)) :=
  fetchLoop env pid fuel (some (tracksUrl pid market)) []

/-- `ChainTo env u rs t`: starting from pending URL `u`, the environment
serves the successful (status-200) pages `rs` one after the other, each
page's `next` link naming the URL of the next, and after the last page of
`rs` the pending URL is `t`. -/
inductive ChainTo (env : String → Response) : Option String → List Response → Option String → Prop
  | refl (t : Option String) : ChainTo env t [] t
  | step (u : String) (rs : List Response) (t : Option String) :
      u ≠ "" → (env u).status = 200 → ChainTo env (env u).next rs t →
      ChainTo env (some u) (env u :: rs) t

theorem fetchLoop_ok_of_chain {env : String → Response} (pid : String)
    {o : Option String} {rs : List Response} {t : Option String}
    (h : ChainTo env o rs t) :
    t = none →
    ∀ acc fuel, rs.length ≤ fuel →
      fetchLoop env pid fuel o acc =
        some (.ok (acc ++ (rs.map (fun r => normalizeItems r.items)).flatten)) := by
  induction h with
  | refl t =>
    intro ht acc fuel _
    subst ht
    simp [fetchLoop]
  | step u rs t hu h200 hch ih =>
    intro ht acc fuel hfuel
    cases fuel with
    | zero => simp at hfuel
    | succ fuel =>
      rw [fetchLoop]
      rw [if_neg hu, if_neg (by simp [h200])]
      have := ih ht (acc ++ normalizeItems (env u).items) fuel (by simpa using hfuel)
      rw [this]
      simp [List.append_assoc]

theorem fetchLoop_error_of_chain {env : String → Response} (pid : String)
    {o : Option String} {rs : List Response} {t : Option String}
    (h : ChainTo env o rs t) :
    ∀ uf, t = some uf → uf ≠ "" → (env uf).status ≠ 200 →
    ∀ acc fuel, rs.length + 1 ≤ fuel →
      fetchLoop env pid fuel o acc =
        some (.error ⟨(env uf).status, mkErrDetail (env uf) (env (probeUrl pid))⟩) := by
  induction h with
  | refl t =>
    intro uf ht hufne hfail acc fuel hfuel
    subst ht
    cases fuel with
    | zero => simp at hfuel
    | succ fuel =>
      rw [fetchLoop]
      rw [if_neg hufne, if_pos hfail]
  | step u rs t hu h200 hch ih =>
    intro uf ht hufne hfail acc fuel hfuel
    cases fuel with
    | zero => simp at hfuel
    | succ fuel =>
      rw [fetchLoop]
      rw [if_neg hu, if_neg (by simp [h200])]
      exact ih uf ht hufne hfail (acc ++ normalizeItems (env u).items) fuel (by simpa using hfuel)

/-! ## CSV renderer and a standard CSV reader

`rows_to_csv` uses Python's `csv.writer` with `quoting=csv.QUOTE_ALL`: every
field is wrapped in double quotes with embedded quotes doubled, fields are
joined by `,`, and each row ends with the writer's default `\r\n`
terminator.  The reader below implements standard CSV parsing of
fully-quoted input and is used to state the round-trip property. -/

/-- Double every `"` inside a field, per standard CSV quoting. -/
def escapeField : List Char → List Char
  | [] => []
  | c :: cs => (if c = '"' then ['"', '"'] else [c]) ++ escapeField cs

/-- Wrap an escaped field in double quotes (`csv.QUOTE_ALL` quotes every
field). -/
def quoteField (f : List Char) : List Char := '"' :: (escapeField f ++ ['"'])

/-- Join the quoted fields of one row with the `,` delimiter. -/
def joinFields : List (List Char) → List Char
  | [] => []
  | f :: fs => quoteField f ++ (if fs.isEmpty then [] else ',' :: joinFields fs)

/-- One output line of `csv.writer.writerow`: delimited quoted fields plus
the default `\r\n` line terminator. -/
def renderRow (fs : List (List Char)) : List Char := joinFields fs ++ ['\r', '\n']

/-- Embedding of `rows_to_csv` (src/app.py lines 67-73): a header row
followed by one row per record, every field quoted. -/
def rows_to_csv (rows : List NormalizedRecord) : String :=
  String.mk (renderRow (["Artist", "Year", "Title", "Link"].map String.data) ++
    (rows.map (fun r => renderRow ((recordFields r).map String.data))).flatten)

/-- Standard CSV reader, quoted-field scanner: the input follows an opening
quote; a doubled quote is an escaped `"`, a single quote closes the field. -/
def parseQuotedAux : List Char → Option (List Char × List Char)
  | [] => none
  | [c] => if c = '"' then some ([], []) else none
  | c :: c2 :: rest =>
    if c = '"' then
      if c2 = '"' then (parseQuotedAux rest).map (fun p => ('"' :: p.1, p.2))
      else some ([], c2 :: rest)
    else (parseQuotedAux (c2 :: rest)).map (fun p => (c :: p.1, p.2))

/-- Standard CSV reader, one row of quoted fields: after each field a `,`
continues the row and `\r\n` ends it.  `fuel` bounds the number of fields. -/
def parseRow : Nat → List Char → Option (List (List Char) × List Char)
  | 0, _ => none
  | fuel + 1, cs =>
    if cs.head? = some '"' then
      match parseQuotedAux cs.tail with
      | none => none
      | some (f, rest) =>
        if rest.head? = some ',' then
          match parseRow fuel rest.tail with
          | none => none
          | some (fs, r) => some (f :: fs, r)
        else if rest.take 2 = ['\r', '\n'] then some ([f], rest.drop 2)
        else none
    else none

/-- Standard CSV reader, a sequence of rows up to end of input. -/
def parseRows : Nat → List Char → Option (List (List (List Char)))
  | _, [] => some []
  | 0, _ :: _ => none
  | fuel + 1, c :: cs =>
    match parseRow (c :: cs).length (c :: cs) with
    | none => none
    | some (r, rest) => (parseRows fuel rest).map (fun rs => r :: rs)

/-- Standard CSV reader over a whole document. -/
def csvParse (s : String) : Option (List (List String)) :=
  (parseRows s.data.length s.data).map (fun rs => rs.map (fun r => r.map String.mk))

theorem parseQuotedAux_inv (f rest : List Char) (h : rest.head? ≠ some '"') :
    parseQuotedAux (escapeField f ++ '"' :: rest) = some (f, rest) := by
  induction f with
  | nil =>
    cases rest with
    | nil => simp [escapeField, parseQuotedAux]
    | cons c2 rs =>
      have hc2 : ¬c2 = '"' := by simpa using h
      simp [escapeField, parseQuotedAux, hc2]
  | cons c f ih =>
    by_cases hc : c = '"'
    · subst hc
      have hstep : escapeField ('"' :: f) ++ '"' :: rest =
          '"' :: '"' :: (escapeField f ++ '"' :: rest) := by
        simp [escapeField]
      rw [hstep]
      have hne : escapeField f ++ '"' :: rest = [] → False := by simp
      cases he : escapeField f ++ '"' :: rest with
      | nil => exact absurd he hne
      | cons d ds =>
        rw [parseQuotedAux, if_pos rfl, if_pos rfl, ← he, ih]
        rfl
    · have hstep : escapeField (c :: f) ++ '"' :: rest =
          c :: (escapeField f ++ '"' :: rest) := by
        simp [escapeField, hc]
      rw [hstep]
      cases he : escapeField f ++ '"' :: rest with
      | nil => simp at he
      | cons d ds =>
        rw [parseQuotedAux, if_neg hc, ← he, ih]
        rfl

theorem mk_data (s : String) : String.mk s.data = s := rfl

theorem le_joinFields_length (fs : List (List Char)) :
    fs.length ≤ (joinFields fs).length := by
  induction fs with
  | nil => simp [joinFields]
  | cons f fs ih =>
    cases fs with
    | nil => simp [joinFields, quoteField]
    | cons f2 fs2 =>
      rw [joinFields]
      simp only [List.isEmpty_cons, Bool.false_eq_true, if_false, List.length_append,
        List.length_cons, quoteField, List.length_append, List.length_cons] at *
      omega

theorem le_renderRow_length (fs : List (List Char)) :
    fs.length ≤ (renderRow fs).length := by
  have := le_joinFields_length fs
  simp only [renderRow, List.length_append, List.length_cons, List.length_nil]
  omega

theorem renderRow_ne_nil (fs : List (List Char)) : renderRow fs ≠ [] := by
  simp [renderRow]

theorem parseRow_inv : ∀ (fs : List (List Char)) (rest : List Char) (fuel : Nat),
    fs ≠ [] → fs.length ≤ fuel →
    parseRow fuel (renderRow fs ++ rest) = some (fs, rest) := by
  intro fs
  induction fs with
  | nil => intro rest fuel h _; exact absurd rfl h
  | cons f fs ih =>
    intro rest fuel _ hfuel
    cases fuel with
    | zero => simp at hfuel
    | succ fuel =>
      cases fs with
      | nil =>
        have hshape : renderRow [f] ++ rest =
            '"' :: (escapeField f ++ '"' :: ('\r' :: '\n' :: rest)) := by
          simp [renderRow, joinFields, quoteField]
        rw [hshape, parseRow]
        simp [parseQuotedAux_inv f ('\r' :: '\n' :: rest) (by simp)]
      | cons f2 fs2 =>
        have hshape : renderRow (f :: f2 :: fs2) ++ rest =
            '"' :: (escapeField f ++ '"' :: (',' :: (renderRow (f2 :: fs2) ++ rest))) := by
          simp [renderRow, joinFields, quoteField]
        rw [hshape, parseRow]
        have hrec := ih rest fuel (by simp) (by simpa using hfuel)
        simp [parseQuotedAux_inv f (',' :: (renderRow (f2 :: fs2) ++ rest)) (by simp), hrec]

theorem parseRows_cons_eq (fuel : Nat) (cs : List Char) (h : cs ≠ []) :
    parseRows (fuel + 1) cs =
      match parseRow cs.length cs with
      | none => none
      | some (r, rest) => (parseRows fuel rest).map (fun rs => r :: rs) := by
  cases cs with
  | nil => exact absurd rfl h
  | cons c cs => rw [parseRows]

theorem le_flatten_renderRow_length (rows : List (List (List Char))) :
    rows.length ≤ ((rows.map renderRow).flatten).length := by
  induction rows with
  | nil => simp
  | cons r rows ih =>
    have h2 : (renderRow r).length = (joinFields r).length + 2 := by
      simp [renderRow]
    simp only [List.map_cons, List.flatten_cons, List.length_append, List.length_cons]
    omega

theorem parseRows_inv : ∀ (rows : List (List (List Char))) (fuel : Nat),
    rows.length ≤ fuel → (∀ r ∈ rows, r ≠ []) →
    parseRows fuel ((rows.map renderRow).flatten) = some rows := by
  intro rows
  induction rows with
  | nil =>
    intro fuel _ _
    cases fuel <;> simp [parseRows]
  | cons r rows ih =>
    intro fuel hfuel hne
    cases fuel with
    | zero => simp at hfuel
    | succ fuel =>
      have hr : r ≠ [] := hne r (by simp)
      have hinput : renderRow r ++ (rows.map renderRow).flatten ≠ [] := by
        intro hcontra
        exact renderRow_ne_nil r (List.append_eq_nil.1 hcontra).1
      have hlen : r.length ≤ (renderRow r ++ (rows.map renderRow).flatten).length := by
        have := le_renderRow_length r
        simp only [List.length_append]
        omega
      rw [show ((r :: rows).map renderRow).flatten =
          renderRow r ++ (rows.map renderRow).flatten from by simp]
      rw [parseRows_cons_eq fuel _ hinput]
      rw [parseRow_inv r _ _ hr hlen]
      simp [ih fuel (by simpa using hfuel) (fun x hx => hne x (by simp [hx]))]

/-! ## Token provider and HTTP endpoints

Handlers return the response the Python code produces (or the
`HTTPException` it raises) together with the list of upstream network
calls performed before producing it, in order.  The token endpoint's
response and the catalog are oracles supplied as arguments. -/

/-- The process configuration: the two env vars, `none` for unset
(`os.getenv` returns `None`). -/
structure Config where
  clientId : Option String
  clientSecret : Option String
deriving DecidableEq

/-- Python truthiness of an optional string: `None` and `""` are falsy. -/
def truthy : Option String → Bool
  | none => false
  | some s => s ≠ ""

/-- The token endpoint's reply: HTTP status, raw body, and the
`access_token` field of the JSON body. -/
structure ExchangeResponse where
  status : Nat
  body : String
  access_token : String
deriving DecidableEq

/-- An HTTPException or error response surfaced to the HTTP caller. -/
structure HTTPError where
  status : Nat
  detail : String
deriving DecidableEq

/-- An upstream network call made by a handler. -/
inductive NetEvent where
  | tokenPost
  | fetchCall (bearer : String)
deriving DecidableEq

/-- Embedding of `get_app_token` (src/app.py lines 26-37): raise 500 before
any network call when either credential env var is unset or empty;
otherwise POST the client-credentials exchange and either raise 502 with
the upstream body or return the token. -/
def get_app_token (cfg : Config) (exch : ExchangeResponse) :
    Except HTTPError String × List NetEvent :=
  if ¬ (truthy cfg.clientId ∧ truthy cfg.clientSecret) then
    (.error ⟨500, "Spotify Credentials fehlen (Env Vars)."⟩, [])
  else if exch.status ≠ 200 then
    (.error ⟨502, "Token-Fehler: " ++ exch.body⟩, [.tokenPost])
  else (.ok exch.access_token, [.tokenPost])

/-- Embedding of the `api_playlist_json` handler (src/app.py lines
108-116): 400 before anything else when the identifier is unrecognized;
otherwise resolve the bearer (caller override or app token) and run the
paginated fetch, returning the `{count, rows}` pair.  The outer `none`
marks fetch-fuel exhaustion. -/
def api_playlist_json (cfg : Config) (url market token : String)
    (exch : ExchangeResponse) (net : String → String → Response) (fuel : Nat) :
    Option (Except HTTPError (Nat × List NormalizedRecord) × List NetEvent) :=
  match extract_playlist_id url with
  | none => some (.error ⟨400, "Ungültige Playlist-URL oder ID"⟩, [])
  | some pid =>
    let be := if token ≠ "" then ((.ok token : Except HTTPError String), ([] : List NetEvent))
              else get_app_token cfg exch
    match be.1 with
    | .error e => some (.error e, be.2)
    | .ok bearer =>
      match fetch_playlist_tracks (net bearer) pid market fuel with
      | none => none
      | some (.error fe) => some (.error ⟨fe.status, fe.detail⟩, be.2 ++ [.fetchCall bearer])
      | some (.ok rows) => some (.ok (rows.length, rows), be.2 ++ [.fetchCall bearer])

/-- Embedding of the `api_playlist_csv` handler (src/app.py lines 118-128):
identical control flow, rendering the rows as CSV text. -/
def api_playlist_csv (cfg : Config) (url market token : String)
    (exch : ExchangeResponse) (net : String → String → Response) (fuel : Nat) :
    Option (Except HTTPError String × List NetEvent) :=
  match extract_playlist_id url with
  | none => some (.error ⟨400, "Ungültige Playlist-URL oder ID"⟩, [])
  | some pid =>
    let be := if token ≠ "" then ((.ok token : Except HTTPError String), ([] : List NetEvent))
              else get_app_token cfg exch
    match be.1 with
    | .error e => some (.error e, be.2)
    | .ok bearer =>
      match fetch_playlist_tracks (net bearer) pid market fuel with
      | none => none
      | some (.error fe) => some (.error ⟨fe.status, fe.detail⟩, be.2 ++ [.fetchCall bearer])
      | some (.ok rows) => some (.ok (rows_to_csv rows), be.2 ++ [.fetchCall bearer])

/-! ## Claim theorems -/

/-- C1 (counterexample): the claim's reference extractor, read literally,
returns the empty string unchanged (it consists — vacuously — entirely of
alphanumeric characters), but `extract_playlist_id` signals an
unrecognized identifier on it, because the `[A-Za-z0-9]+` fullmatch
requires at least one character. -/
theorem extract_playlist_id_empty_cex :
    ("" : String).data.all isAlnum = true ∧
    claimRefExtract "" = some "" ∧
    extract_playlist_id "" = none := by
  refine ⟨by decide, ?_, ?_⟩ <;> rfl

/-- C1 (amended): for every input string, if the string is non-empty and
consists entirely of alphanumeric characters it is returned unchanged;
otherwise, if the regex search finds a `playlist/<id>` segment, the
captured identifier — a non-empty alphanumeric substring directly
following a `playlist/` occurrence — is returned, and such a segment
anywhere in the string (regardless of surrounding characters) guarantees
the search succeeds; otherwise the extractor returns no identifier. -/
theorem extract_playlist_id_spec (s : String) :
    (s.data ≠ [] ∧ s.data.all isAlnum = true → extract_playlist_id s = some s) ∧
    (¬(s.data ≠ [] ∧ s.data.all isAlnum = true) →
      (∀ id, searchPlaylist s.data = some id →
        extract_playlist_id s = some (String.mk id) ∧ id ≠ [] ∧ id.all isAlnum = true ∧
        ∃ pre post, s.data = pre ++ playlistPat ++ id ++ post) ∧
      ((∃ pre id post, s.data = pre ++ playlistPat ++ id ++ post ∧ id ≠ [] ∧
          id.all isAlnum = true) → ∃ rid, extract_playlist_id s = some rid) ∧
      (searchPlaylist s.data = none → extract_playlist_id s = none)) := by
  constructor
  · intro h
    unfold extract_playlist_id
    rw [if_pos h]
  · intro h
    refine ⟨?_, ?_, ?_⟩
    · intro id hid
      obtain ⟨h1, h2, pre, post, h3⟩ := searchPlaylist_some hid
      refine ⟨?_, h1, h2, pre, post, h3⟩
      unfold extract_playlist_id
      rw [if_neg h, hid]
    · rintro ⟨pre, id, post, hdec, hne, hal⟩
      have hs := searchPlaylist_isSome pre id post hne hal
      rw [← hdec] at hs
      cases hsp : searchPlaylist s.data with
      | none => rw [hsp] at hs; simp at hs
      | some rid =>
        refine ⟨String.mk rid, ?_⟩
        unfold extract_playlist_id
        rw [if_neg h, hsp]
    · intro hn
      unfold extract_playlist_id
      rw [if_neg h, hn]

/-- C1 (witness): the amended characterization evaluated at a bare
alphanumeric id, at a full URL with extra path and query characters, and
at an unrecognizable string. -/
theorem extract_playlist_id_spec_witness :
    extract_playlist_id "37i9dQZF1DXcBWIGoYBM5M" = some "37i9dQZF1DXcBWIGoYBM5M" ∧
    extract_playlist_id "https://x.y/playlist/abC123?si=9" = some "abC123" ∧
    extract_playlist_id "no such shape" = none := by
  refine ⟨(extract_playlist_id_spec "37i9dQZF1DXcBWIGoYBM5M").1 (by decide), ?_,
    ((extract_playlist_id_spec "no such shape").2 (by decide)).2.2 (by decide)⟩
  exact (((extract_playlist_id_spec "https://x.y/playlist/abC123?si=9").2 (by decide)).1
    "abC123".data (by decide)).1

theorem normalizeItem_eq_of_track (it : RawItem) (t : RawTrack)
    (h1 : it.track = some t) (h2 : t.type = some "track") :
    normalizeItem it = some
      { Artist := String.intercalate ", " ((t.artists.getD []).map (fun a => a.name.getD ""))
      , Year := takeChars 4 ((t.album.bind RawAlbum.release_date).getD "")
      , Title := t.name.getD ""
      , Link := ((t.external_urls.getD ⟨none⟩).spotify).getD "" } := by
  unfold normalizeItem
  rw [h1]
  simp [h2]

theorem takeWhile_append_of_all {p : Char → Bool} {a : List Char} (b : List Char)
    (h : ∀ c ∈ a, p c = true) :
    (a ++ b).takeWhile p = a ++ b.takeWhile p := by
  induction a with
  | nil => simp
  | cons c a ih =>
    have hc : p c = true := h c (by simp)
    simp only [List.cons_append, List.takeWhile_cons, hc, if_true]
    rw [ih (fun d hd => h d (by simp [hd]))]

/-- C3 (counterexample): the claim fails on release-date strings that are
not ISO-shaped.  For `"19940301"` (no dash) the Year is the first 4
characters `"1994"` while the substring before the first `-` is the whole
string, so the claimed equivalence is false; for the 2-character release
date `"99"` the Year is `"99"`, which is neither empty nor 4 characters
long. -/
theorem year_field_cex :
    (normalizeItem ⟨some ⟨some "track", some [], some ⟨some "19940301"⟩, some "T", none⟩⟩ =
      some ⟨"", "1994", "T", ""⟩) ∧
    beforeDash "19940301" = "19940301" ∧ ("1994" : String) ≠ "19940301" ∧
    (normalizeItem ⟨some ⟨some "track", some [], some ⟨some "99"⟩, some "T", none⟩⟩ =
      some ⟨"", "99", "T", ""⟩) ∧
    ("99" : String).length = 2 := by
  refine ⟨by rfl, by rfl, by decide, by rfl, by rfl⟩

/-- C3 (amended): the Year field is the first 4 characters of the track's
album release-date string, and the empty string when the release date is
absent; for release dates of the upstream's ISO shape — a dash-free
4-character prefix followed by nothing or by a `-` — this equals the
substring before the first `-` and is exactly 4 characters long (e.g.
release date `"1994-03-01"` yields Year `"1994"`). -/
theorem year_field_spec (it : RawItem) (t : RawTrack) (d : String)
    (h1 : it.track = some t) (h2 : t.type = some "track")
    (h3 : (t.album.bind RawAlbum.release_date).getD "" = d) :
    ∃ r, normalizeItem it = some r ∧ r.Year = takeChars 4 d ∧
      (d = "" → r.Year = "") ∧
      (∀ y rest, d.data = y ++ rest → y.length = 4 → (∀ c ∈ y, c ≠ '-') →
        (rest = [] ∨ rest.head? = some '-') →
        r.Year = beforeDash d ∧ r.Year.length = 4) := by
  refine ⟨_, normalizeItem_eq_of_track it t h1 h2, ?_, ?_, ?_⟩
  · show takeChars 4 ((t.album.bind RawAlbum.release_date).getD "") = takeChars 4 d
    rw [h3]
  · intro hd
    show takeChars 4 ((t.album.bind RawAlbum.release_date).getD "") = ""
    rw [h3, hd]
    rfl
  · intro y rest hdec hy4 hnodash hrest
    have hyear : takeChars 4 ((t.album.bind RawAlbum.release_date).getD "") = String.mk y := by
      rw [h3]
      unfold takeChars
      rw [hdec, List.take_append_of_le_length (by omega), ← hy4, List.take_length]
    constructor
    · show takeChars 4 ((t.album.bind RawAlbum.release_date).getD "") = beforeDash d
      rw [hyear]
      unfold beforeDash
      rw [hdec, takeWhile_append_of_all rest (fun c hc => by simpa using hnodash c hc)]
      have hrw : rest.takeWhile (fun c => c ≠ '-') = [] := by
        rcases hrest with h | h
        · simp [h]
        · cases rest with
          | nil => simp
          | cons c rs =>
            have : c = '-' := by simpa using h
            simp [List.takeWhile_cons, this]
      rw [hrw, List.append_nil]
    · show (takeChars 4 ((t.album.bind RawAlbum.release_date).getD "")).length = 4
      rw [hyear]
      simpa [String.length] using hy4

/-- C3 (witness): the amended statement at the spec's own example, release
date `"1994-03-01"`, yielding Year `"1994"` = before-dash substring, of
length 4. -/
theorem year_field_spec_witness :
    ∃ r, normalizeItem ⟨some ⟨some "track", some [], some ⟨some "1994-03-01"⟩, some "T", none⟩⟩ =
        some r ∧ r.Year = takeChars 4 "1994-03-01" ∧ r.Year = beforeDash "1994-03-01" ∧
        r.Year.length = 4 := by
  obtain ⟨r, hr, hy, _, hiso⟩ :=
    year_field_spec ⟨some ⟨some "track", some [], some ⟨some "1994-03-01"⟩, some "T", none⟩⟩
      ⟨some "track", some [], some ⟨some "1994-03-01"⟩, some "T", none⟩ "1994-03-01"
      rfl rfl rfl
  obtain ⟨hb, hl⟩ := hiso "1994".data "-03-01".data (by decide) (by decide) (by decide)
    (Or.inr (by decide))
  exact ⟨r, hr, hy, hb, hl⟩

/-- C5: an item whose nested track is absent, or whose track's type marker
is not `"track"`, is skipped: it normalizes to no record and contributes
nothing to the output sequence wherever it occurs in the items list. -/
theorem normalize_skips_non_track (it : RawItem)
    (h : it.track = none ∨ ∃ t, it.track = some t ∧ t.type ≠ some "track") :
    normalizeItem it = none ∧
    ∀ l1 l2, normalizeItems (l1 ++ it :: l2) = normalizeItems (l1 ++ l2) := by
  have h0 : normalizeItem it = none := by
    rcases h with h | ⟨t, ht, hty⟩
    · unfold normalizeItem
      rw [h]
    · unfold normalizeItem
      rw [ht]
      simp [hty]
  refine ⟨h0, fun l1 l2 => ?_⟩
  unfold normalizeItems
  simp [List.filterMap_append, List.filterMap_cons, h0]

/-- C5 (witness): a null-track item and an `"episode"`-typed item both
normalize to nothing and drop out of an items list. -/
theorem normalize_skips_non_track_witness :
    normalizeItem ⟨none⟩ = none ∧
    normalizeItem ⟨some ⟨some "episode", none, none, none, none⟩⟩ = none ∧
    normalizeItems ([⟨some ⟨some "track", some [⟨some "A"⟩], none, some "T", none⟩⟩] ++
        (⟨none⟩ : RawItem) :: []) =
      normalizeItems ([⟨some ⟨some "track", some [⟨some "A"⟩], none, some "T", none⟩⟩] ++ []) :=
  ⟨(normalize_skips_non_track ⟨none⟩ (Or.inl rfl)).1,
   (normalize_skips_non_track ⟨some ⟨some "episode", none, none, none, none⟩⟩
     (Or.inr ⟨_, rfl, by decide⟩)).1,
   (normalize_skips_non_track ⟨none⟩ (Or.inl rfl)).2 _ _⟩

/-- C6: the Artist field of a playable track's record is the names of its
artist sub-objects (each defaulting to the empty string) joined with
`", "` in their given order; an absent or empty artist sequence yields the
empty string. -/
theorem artist_field_spec (it : RawItem) (t : RawTrack)
    (h1 : it.track = some t) (h2 : t.type = some "track") :
    ∃ r, normalizeItem it = some r ∧
      r.Artist = String.intercalate ", " ((t.artists.getD []).map (fun a => a.name.getD "")) ∧
      ((t.artists = none ∨ t.artists = some []) → r.Artist = "") := by
  refine ⟨_, normalizeItem_eq_of_track it t h1 h2, rfl, ?_⟩
  intro h
  show String.intercalate ", " ((t.artists.getD []).map (fun a => a.name.getD "")) = ""
  rcases h with h | h <;> rw [h] <;> rfl

/-- C6 (witness): artists `[{"name":"A"},{"name":"B"}]` yield Artist
`"A, B"`, and an absent artists list yields `""`. -/
theorem artist_field_spec_witness :
    (∃ r, normalizeItem ⟨some ⟨some "track", some [⟨some "A"⟩, ⟨some "B"⟩], none, some "T", none⟩⟩ =
        some r ∧ r.Artist = "A, B") ∧
    (∃ r, normalizeItem ⟨some ⟨some "track", none, none, some "T", none⟩⟩ =
        some r ∧ r.Artist = "") := by
  constructor
  · obtain ⟨r, hr, ha, _⟩ := artist_field_spec
      ⟨some ⟨some "track", some [⟨some "A"⟩, ⟨some "B"⟩], none, some "T", none⟩⟩
      ⟨some "track", some [⟨some "A"⟩, ⟨some "B"⟩], none, some "T", none⟩ rfl rfl
    refine ⟨r, hr, ?_⟩
    rw [ha]
    rfl
  · obtain ⟨r, hr, _, he⟩ := artist_field_spec
      ⟨some ⟨some "track", none, none, some "T", none⟩⟩
      ⟨some "track", none, none, some "T", none⟩ rfl rfl
    exact ⟨r, hr, he (Or.inl rfl)⟩

/-- C10: every record produced by normalization is a dict with exactly the
keys Artist, Year, Title, Link in that order, whose values are strings:
missing sub-fields — artists, album, release date (an album without one),
name, external URL — default to the empty string, and a nameless artist
contributes an empty segment to the comma join. -/
theorem record_shape_spec (it : RawItem) (t : RawTrack)
    (h1 : it.track = some t) (h2 : t.type = some "track") :
    ∃ r, normalizeItem it = some r ∧
      (recordPairs r).map Prod.fst = ["Artist", "Year", "Title", "Link"] ∧
      (t.artists = none → r.Artist = "") ∧
      (t.album = none → r.Year = "") ∧
      (∀ al, t.album = some al → al.release_date = none → r.Year = "") ∧
      (t.name = none → r.Title = "") ∧
      (t.external_urls = none → r.Link = "") ∧
      (∀ as, t.artists = some as →
        r.Artist = String.intercalate ", " (as.map (fun a => a.name.getD ""))) := by
  refine ⟨_, normalizeItem_eq_of_track it t h1 h2, rfl, ?_, ?_, ?_, ?_, ?_, ?_⟩
  · intro h
    show String.intercalate ", " ((t.artists.getD []).map (fun a => a.name.getD "")) = ""
    rw [h]
    rfl
  · intro h
    show takeChars 4 ((t.album.bind RawAlbum.release_date).getD "") = ""
    rw [h]
    rfl
  · intro al h hrd
    show takeChars 4 ((t.album.bind RawAlbum.release_date).getD "") = ""
    rw [h]
    simp [hrd, takeChars]
  · intro h
    show t.name.getD "" = ""
    rw [h]
    rfl
  · intro h
    show ((t.external_urls.getD ⟨none⟩).spotify).getD "" = ""
    rw [h]
    rfl
  · intro as h
    show String.intercalate ", " ((t.artists.getD []).map (fun a => a.name.getD "")) =
      String.intercalate ", " (as.map (fun a => a.name.getD ""))
    rw [h]
    rfl

/-- C10 (witness): a track with a nameless artist, a named artist, and no
album, name or external URL yields the record with keys
Artist, Year, Title, Link, empty defaults, and Artist `", B"`; a track
whose album is present but lacks a release date also gets Year `""`. -/
theorem record_shape_spec_witness :
    (∃ r, normalizeItem ⟨some ⟨some "track", some [⟨none⟩, ⟨some "B"⟩], none, none, none⟩⟩ =
        some r ∧ (recordPairs r).map Prod.fst = ["Artist", "Year", "Title", "Link"] ∧
      r.Year = "" ∧ r.Title = "" ∧ r.Link = "" ∧ r.Artist = ", B") ∧
    (∃ r, normalizeItem ⟨some ⟨some "track", none, some ⟨none⟩, some "T", none⟩⟩ =
        some r ∧ r.Year = "") := by
  constructor
  · obtain ⟨r, hr, hk, _, hy, _, hti, hl, hart⟩ := record_shape_spec
      ⟨some ⟨some "track", some [⟨none⟩, ⟨some "B"⟩], none, none, none⟩⟩
      ⟨some "track", some [⟨none⟩, ⟨some "B"⟩], none, none, none⟩ rfl rfl
    refine ⟨r, hr, hk, hy rfl, hti rfl, hl rfl, ?_⟩
    rw [hart [⟨none⟩, ⟨some "B"⟩] rfl]
    rfl
  · obtain ⟨r, hr, _, _, _, hyrd, _, _, _⟩ := record_shape_spec
      ⟨some ⟨some "track", none, some ⟨none⟩, some "T", none⟩⟩
      ⟨some "track", none, some ⟨none⟩, some "T", none⟩ rfl rfl
    exact ⟨r, hr, hyrd ⟨none⟩ rfl rfl⟩

/-- C2: for every upstream environment serving a chain of successful pages
linked by their `next` URLs, the paginated fetch starting at the first
page's URL visits the chain in order, accumulates the normalized records
of every playable track item of all pages in arrival order, and terminates
as soon as a page's `next` link is absent (fuel equal to the chain length
suffices). -/
theorem fetch_pagination_spec (env : String → Response) (pid market : String)
    (rs : List Response) (fuel : Nat)
    (hch : ChainTo env (some (tracksUrl pid market)) rs none)
    (hfuel : rs.length ≤ fuel) :
    fetch_playlist_tracks env pid market fuel =
      some (.ok ((rs.map (fun r => normalizeItems r.items)).flatten)) := by
  have h := fetchLoop_ok_of_chain pid hch rfl [] fuel hfuel
  simpa [fetch_playlist_tracks] using h

/-- A playlist item wrapping a playable track with one artist and a title. -/
def trackItem (artist title : String) : RawItem :=
  ⟨some ⟨some "track", some [⟨some artist⟩], none, some title, none⟩⟩

/-- First mock page: one track, next link to `u2`. -/
def page1 : Response := ⟨200, "", [trackItem "A" "T1"], some "u2"⟩

/-- Second mock page: one track, next link to `u3`. -/
def page2 : Response := ⟨200, "", [trackItem "B" "T2"], some "u3"⟩

/-- Third mock page: one track, no next link. -/
def page3 : Response := ⟨200, "", [trackItem "C" "T3"], none⟩

/-- Mock upstream serving the three chained pages for playlist `p`. -/
def env3 : String → Response := fun u =>
  if u = tracksUrl "p" "" then page1
  else if u = "u2" then page2
  else if u = "u3" then page3
  else ⟨404, "not found", [], none⟩

/-- C2 (witness): three mock pages chained by next links are accumulated in
order and the fetch stops when next is absent, with fuel exactly the chain
length. -/
theorem fetch_pagination_spec_witness :
    fetch_playlist_tracks env3 "p" "" 3 =
      some (.ok [⟨"A", "", "T1", ""⟩, ⟨"B", "", "T2", ""⟩, ⟨"C", "", "T3", ""⟩]) := by
  have e1 : env3 (tracksUrl "p" "") = page1 := by decide
  have e2 : env3 "u2" = page2 := by decide
  have e3 : env3 "u3" = page3 := by decide
  have c3 : ChainTo env3 (some "u3") [env3 "u3"] none := by
    apply ChainTo.step "u3" [] none (by decide) (by rw [e3]; rfl)
    rw [e3]
    exact ChainTo.refl none
  have c2 : ChainTo env3 (some "u2") [env3 "u2", env3 "u3"] none := by
    apply ChainTo.step "u2" [env3 "u3"] none (by decide) (by rw [e2]; rfl)
    rw [e2]
    exact c3
  have c1 : ChainTo env3 (some (tracksUrl "p" ""))
      [env3 (tracksUrl "p" ""), env3 "u2", env3 "u3"] none := by
    apply ChainTo.step (tracksUrl "p" "") [env3 "u2", env3 "u3"] none (by decide)
      (by rw [e1]; rfl)
    rw [e1]
    exact c2
  rw [e1, e2, e3] at c1
  have h := fetch_pagination_spec env3 "p" "" [page1, page2, page3] 3 c1 (by decide)
  rw [h]
  rfl

/-- C9: if, after any chain of successful pages, the pending page request
returns a non-200 status, the whole fetch aborts with an error carrying
the upstream status and a detail string starting with the upstream body;
the records accumulated from the earlier pages are discarded — no `ok`
row list is returned. -/
theorem fetch_fail_spec (env : String → Response) (pid market : String)
    (rs : List Response) (uf : String) (fuel : Nat)
    (hch : ChainTo env (some (tracksUrl pid market)) rs (some uf))
    (huf : uf ≠ "") (hfail : (env uf).status ≠ 200)
    (hfuel : rs.length + 1 ≤ fuel) :
    fetch_playlist_tracks env pid market fuel =
      some (.error ⟨(env uf).status, mkErrDetail (env uf) (env (probeUrl pid))⟩) ∧
    (∃ tail, mkErrDetail (env uf) (env (probeUrl pid)) =
      "Spotify API: " ++ (env uf).body ++ tail) ∧
    ∀ rows, fetch_playlist_tracks env pid market fuel ≠ some (.ok rows) := by
  have h := fetchLoop_error_of_chain pid hch uf rfl huf hfail [] fuel hfuel
  refine ⟨h, ⟨" | probe_status=" ++ toString (env (probeUrl pid)).status ++ " body=" ++
      takeChars 200 (env (probeUrl pid)).body, by simp [mkErrDetail, String.append_assoc]⟩, ?_⟩
  intro rows hcontra
  rw [fetch_playlist_tracks] at hcontra
  rw [h] at hcontra
  simp at hcontra

/-- First mock page of the failing scenario: one track, next link to `u2`. -/
def page1f : Response := ⟨200, "", [trackItem "A" "T1"], some "u2"⟩

/-- The failing second page: HTTP 404 with body `nope`. -/
def pageErr : Response := ⟨404, "nope", [], none⟩

/-- Mock upstream for the failing scenario: the probe and all other
requests answer 500. -/
def envFail : String → Response := fun u =>
  if u = tracksUrl "q" "" then page1f
  else if u = "u2" then pageErr
  else ⟨500, "x", [], none⟩

/-- C9 (witness): one successful page followed by a 404 page makes the
whole fetch abort with the 404 status and the upstream body in the detail;
the successful page's record is discarded. -/
theorem fetch_fail_spec_witness :
    fetch_playlist_tracks envFail "q" "" 2 =
      some (.error ⟨404, "Spotify API: nope | probe_status=500 body=x"⟩) := by
  have e1 : envFail (tracksUrl "q" "") = page1f := by decide
  have c1 : ChainTo envFail (some (tracksUrl "q" "")) [envFail (tracksUrl "q" "")]
      (some "u2") := by
    apply ChainTo.step (tracksUrl "q" "") [] (some "u2") (by decide) (by rw [e1]; rfl)
    rw [e1]
    exact ChainTo.refl (some "u2")
  have h := (fetch_fail_spec envFail "q" "" [envFail (tracksUrl "q" "")] "u2" 2 c1
    (by decide) (by decide) (by simp)).1
  rw [h]
  rfl

/-- C7: a request whose identifier string matches neither the bare
alphanumeric shape nor the `playlist/<id>` segment shape is rejected with
HTTP 400 and an empty network trace — no token exchange and no upstream
fetch is performed — by both the JSON and the CSV endpoint, whatever the
configuration, override token, exchange response or upstream contents. -/
theorem invalid_id_rejected (cfg : Config) (url market token : String)
    (exch : ExchangeResponse) (net : String → String → Response) (fuel : Nat)
    (h : extract_playlist_id url = none) :
    api_playlist_json cfg url market token exch net fuel =
      some (.error ⟨400, "Ungültige Playlist-URL oder ID"⟩, []) ∧
    api_playlist_csv cfg url market token exch net fuel =
      some (.error ⟨400, "Ungültige Playlist-URL oder ID"⟩, []) := by
  constructor
  · unfold api_playlist_json
    rw [h]
  · unfold api_playlist_csv
    rw [h]

/-- C7 (witness): both endpoints reject the unrecognizable identifier
`"not a playlist!"` with 400 and no network calls. -/
theorem invalid_id_rejected_witness :
    api_playlist_json ⟨some "id", some "sec"⟩ "not a playlist!" "" "tok" ⟨200, "", "t"⟩
        (fun _ _ => ⟨200, "", [], none⟩) 5 =
      some (.error ⟨400, "Ungültige Playlist-URL oder ID"⟩, []) ∧
    api_playlist_csv ⟨some "id", some "sec"⟩ "not a playlist!" "" "tok" ⟨200, "", "t"⟩
        (fun _ _ => ⟨200, "", [], none⟩) 5 =
      some (.error ⟨400, "Ungültige Playlist-URL oder ID"⟩, []) :=
  invalid_id_rejected ⟨some "id", some "sec"⟩ "not a playlist!" "" "tok" ⟨200, "", "t"⟩
    (fun _ _ => ⟨200, "", [], none⟩) 5 (by decide)

/-- C8: when the identifier is recognized, (a) if the caller supplies no
override token and either credential is unset or empty, the request fails
with the 500 missing-credentials error and an empty network trace — no
network call is attempted; (b) if the caller supplies a non-empty override
token, the credential exchange is skipped entirely and the fetch runs with
the override used verbatim: the whole network trace is the single fetch
call carrying exactly that token. -/
theorem token_override_spec (cfg : Config) (url market token : String)
    (exch : ExchangeResponse) (net : String → String → Response) (fuel : Nat)
    (pid : String) (hpid : extract_playlist_id url = some pid) :
    (token = "" → truthy cfg.clientId = false ∨ truthy cfg.clientSecret = false →
      api_playlist_json cfg url market token exch net fuel =
        some (.error ⟨500, "Spotify Credentials fehlen (Env Vars)."⟩, [])) ∧
    (token ≠ "" →
      ∀ res, fetch_playlist_tracks (net token) pid market fuel = some res →
        api_playlist_json cfg url market token exch net fuel =
          some ((match res with
                 | .error fe => .error ⟨fe.status, fe.detail⟩
                 | .ok rows => .ok (rows.length, rows)), [.fetchCall token])) := by
  constructor
  · intro htok hcreds
    subst htok
    rcases hcreds with h | h <;> simp [api_playlist_json, hpid, get_app_token, h]
  · intro htok res hres
    cases res with
    | error fe => simp [api_playlist_json, hpid, htok, hres]
    | ok rows => simp [api_playlist_json, hpid, htok, hres]

/-- C8 (witness): with an unset client id and no token the request errors
500 with no network call; with override token `"USERTOK"` the exchange is
skipped and the fetch call carries the token verbatim. -/
theorem token_override_spec_witness :
    api_playlist_json ⟨none, some "sec"⟩ "abc" "" "" ⟨200, "b", "t"⟩
        (fun _ _ => ⟨200, "", [], none⟩) 1 =
      some (.error ⟨500, "Spotify Credentials fehlen (Env Vars)."⟩, []) ∧
    api_playlist_json ⟨none, some "sec"⟩ "abc" "" "USERTOK" ⟨200, "b", "t"⟩
        (fun _ _ => ⟨200, "", [], none⟩) 1 =
      some (.ok (0, []), [.fetchCall "USERTOK"]) := by
  constructor
  · exact (token_override_spec ⟨none, some "sec"⟩ "abc" "" "" ⟨200, "b", "t"⟩
      (fun _ _ => ⟨200, "", [], none⟩) 1 "abc" (by decide)).1 rfl (Or.inl (by decide))
  · have h := (token_override_spec ⟨none, some "sec"⟩ "abc" "" "USERTOK" ⟨200, "b", "t"⟩
      (fun _ _ => ⟨200, "", [], none⟩) 1 "abc" (by decide)).2
      (by decide) (.ok []) (by rfl)
    simpa using h

/-- C4: rendering any record list to CSV yields the quoted header row
`Artist,Year,Title,Link` followed by one fully-quoted row per record in
order, and parsing the text back with a standard CSV reader (which accepts
only quoted fields) reproduces every field value exactly — commas, quotes
and newlines included: render-then-parse is the identity on field
values. -/
theorem rows_to_csv_roundtrip (recs : List NormalizedRecord) :
    csvParse (rows_to_csv recs) =
      some (["Artist", "Year", "Title", "Link"] :: recs.map recordFields) := by
  have hrows :
      (rows_to_csv recs).data =
        (((["Artist", "Year", "Title", "Link"].map String.data) ::
          recs.map (fun r => (recordFields r).map String.data)).map renderRow).flatten := by
    simp [rows_to_csv, Function.comp_def]
  have hne : ∀ r ∈ (["Artist", "Year", "Title", "Link"].map String.data) ::
      recs.map (fun r => (recordFields r).map String.data), r ≠ [] := by
    intro r hr
    rcases List.mem_cons.1 hr with rfl | hmem
    · simp
    · obtain ⟨x, _, rfl⟩ := List.mem_map.1 hmem
      simp [recordFields]
  unfold csvParse
  rw [hrows, parseRows_inv _ _ (le_flatten_renderRow_length _) hne]
  simp [recordFields, mk_data]

end SpotifyCards
